import Mathlib

/-!
Shallow embedding of `src/app.py` (UGC NET score calculator).

The program has three core functions:
  * `extract_answers_from_pdf` — scans each page's text with the regexes
    `Question ID\s*:\s*(\d+)` and `Chosen Option\s*:\s*(\d+)`, zips the two
    match lists per page, and accumulates `(int(qid), int(chosen))` pairs;
  * `calculate_score` — left-merges the answer key with the extracted
    answers on `QuestionID`, classifies each row, assigns marks, and builds
    a four-entry summary;
  * the Streamlit driver, which stops with an error message when the
    extracted answer set is empty, and otherwise scores.

Page texts are embedded as `List Char`; DataFrames as lists of tuples or
of structures; a missing (`NaN`) `ChosenOption` after the left merge as
`Option Int`.
-/

namespace UgcNet

/-- Characters matched by Python's regex `\s` (the ASCII ones, which are the
only whitespace relevant to the response-sheet text). -/
def pySpace (c : Char) : Bool :=
  c = ' ' || c = '\t' || c = '\n' || c = '\r' || c = Char.ofNat 11 || c = Char.ofNat 12

/-- Consume the literal head of a pattern from the front of the text:
`some rest` when `lit` is an initial segment of `cs`. -/
def consumeLit : List Char → List Char → Option (List Char)
  | [], cs => some cs
  | _ :: _, [] => none
  | l :: ls, c :: cs => if c = l then consumeLit ls cs else none

/-- Try to match `LIT\s*:\s*(\d+)` at the start of `cs`; on success return
the captured digit group and the remaining text after the whole match.
Maximal munch is exact here: `\s*` is followed by `:` or `\d`, neither of
which `\s` matches, and the greedy `(\d+)` ends the pattern, so the regex
engine never backtracks on these patterns. -/
def matchAt (lit cs : List Char) : Option (List Char × List Char) :=
  match consumeLit lit cs with
  | none => none
  | some r1 =>
    match r1.dropWhile pySpace with
    | [] => none
    | c :: r3 =>
      if c = ':' then
        let r4 := r3.dropWhile pySpace
        let ds := r4.takeWhile Char.isDigit
        if ds = [] then none else some (ds, r4.dropWhile Char.isDigit)
      else none

/-- Fuel-indexed worker for `findall`: scan left to right, at each position
try `matchAt`; on success emit the captured group and resume after the
match, otherwise advance one character. -/
def findallAux (lit : List Char) : Nat → List Char → List (List Char)
  | 0, _ => []
  | _, [] => []
  | fuel + 1, c :: cs =>
    match matchAt lit (c :: cs) with
    | some (ds, rest) => ds :: findallAux lit fuel rest
    | none => findallAux lit fuel cs

/-- `re.findall` for the patterns `LIT\s*:\s*(\d+)` used by the program:
the list of captured digit groups of the non-overlapping matches, left to
right.  Fuel `cs.length` is exact: every successful match consumes at least
the `:` and one digit (`matchAt_some_length`), so the fuel never runs out
before the text does. -/
def findall (lit cs : List Char) : List (List Char) :=
  findallAux lit cs.length cs

/-- `QID_PATTERN`'s literal head (`re.compile(r"Question ID\s*:\s*(\d+)")`). -/
def qidLit : List Char := "Question ID".data

/-- `CHOSEN_PATTERN`'s literal head (`re.compile(r"Chosen Option\s*:\s*(\d+)")`). -/
def chosenLit : List Char := "Chosen Option".data

/-- Python's `int` on the digit-only strings captured by `(\d+)`. -/
def strToNat (ds : List Char) : Nat :=
  ds.foldl (fun n c => 10 * n + (c.toNat - '0'.toNat)) 0

/-- The captured string as a Python integer. -/
def strToInt (ds : List Char) : Int := (strToNat ds : Int)

/-- Body of the page loop of `extract_answers_from_pdf`: find all question
ids and all chosen options in one page's text, then
`for qid, chosen in zip(qids, chosens)` append `int(qid)` to the first
accumulator list and `int(chosen)` to the second. -/
def extractFold (acc : List Int × List Int) (t : List Char) : List Int × List Int :=
  let qids := findall qidLit t
  let chosens := findall chosenLit t
  (qids.zip chosens).foldl
    (fun a p => (a.1 ++ [strToInt p.1], a.2 ++ [strToInt p.2])) acc

/-- `extract_answers_from_pdf`: fold the page loop over all page texts and
return the rows of the resulting two-column DataFrame
(`QuestionID`, `ChosenOption`), i.e. the two accumulated columns zipped. -/
def extract_answers_from_pdf (pages : List (List Char)) : List (Int × Int) :=
  let r := pages.foldl extractFold ([], [])
  r.1.zip r.2

/-- The pairs one page contributes: the i-th question-id match paired with
the i-th chosen-option match, both parsed as integers. -/
def pagePairs (t : List Char) : List (Int × Int) :=
  ((findall qidLit t).zip (findall chosenLit t)).map
    (fun p => (strToInt p.1, strToInt p.2))

/-- `MARKS_CORRECT = 2`. -/
def MARKS_CORRECT : Int := 2

/-- `MARKS_WRONG = 0`. -/
def MARKS_WRONG : Int := 0

/-- `MARKS_UNATTEMPTED = 0`. -/
def MARKS_UNATTEMPTED : Int := 0

/-- A row of `pd.merge(answer_key_df, my_answers_df, on="QuestionID",
how="left")`: `ChosenOption` is `none` where pandas puts `NaN`. -/
structure MergedRow where
  QuestionID : Int
  CorrectOption : Int
  ChosenOption : Option Int
deriving DecidableEq, Repr

/-- The rows the left merge produces for one answer-key row `k`: all
matching extracted rows in order, or a single `NaN` row when none
matches. -/
def mergeGroup (ans : List (Int × Int)) (k : Int × Int) : List MergedRow :=
  let ms := ans.filter (fun a => a.1 == k.1)
  if ms.isEmpty then [⟨k.1, k.2, none⟩]
  else ms.map (fun a => ⟨k.1, k.2, some a.2⟩)

/-- The pandas left merge on `QuestionID`: every key row in order; for each,
all matching extracted rows in order, or a single `NaN` row when none
matches (duplicated `QuestionID`s on the right fan out). -/
def merge_left (key ans : List (Int × Int)) : List MergedRow :=
  (key.map (mergeGroup ans)).flatten

/-- `result_row` from `calculate_score`: `NaN` chosen option → "Not
Attempted"; `int(chosen) == int(correct)` → "Correct"; otherwise "Wrong". -/
def result_row (r : MergedRow) : String :=
  match r.ChosenOption with
  | none => "Not Attempted"
  | some c => if c = r.CorrectOption then "Correct" else "Wrong"

/-- `marks_row` from `calculate_score`, applied to the row's `Result`. -/
def marks_row (result : String) : Int :=
  if result = "Correct" then MARKS_CORRECT
  else if result = "Wrong" then MARKS_WRONG
  else MARKS_UNATTEMPTED

/-- A row of the report DataFrame after the `Result` and `Marks` columns
are added. -/
structure ScoredRow where
  QuestionID : Int
  CorrectOption : Int
  ChosenOption : Option Int
  Result : String
  Marks : Int
deriving DecidableEq, Repr

/-- The summary dict of `calculate_score`. -/
structure Summary where
  Correct : Nat
  Wrong : Nat
  NotAttempted : Nat
  TotalScore : Int
deriving DecidableEq, Repr

/-- One merged row with its `Result` and `Marks` columns filled in. -/
def scoreRow (m : MergedRow) : ScoredRow :=
  { QuestionID := m.QuestionID, CorrectOption := m.CorrectOption,
    ChosenOption := m.ChosenOption, Result := result_row m,
    Marks := marks_row (result_row m) }

/-- `calculate_score`: merge, classify, assign marks, and summarise. -/
def calculate_score (key ans : List (Int × Int)) : List ScoredRow × Summary :=
  let report := (merge_left key ans).map scoreRow
  (report,
    { Correct := report.countP (fun r => r.Result == "Correct"),
      Wrong := report.countP (fun r => r.Result == "Wrong"),
      NotAttempted := report.countP (fun r => r.Result == "Not Attempted"),
      TotalScore := (report.map ScoredRow.Marks).sum })

/-- The driver's diagnostic when nothing was extracted (first line of the
`st.error` message at `my_answers.empty`). -/
def extractionError : String :=
  "Could not extract QuestionID / ChosenOption from this PDF."

/-- The driver's scoring path (lines 153–169 of `app.py`): extract; if the
result is empty, stop with the diagnostic and produce no report or summary;
otherwise score. -/
def runPipeline (key : List (Int × Int)) (pages : List (List Char)) :
    Except String (List ScoredRow × Summary) :=
  let my := extract_answers_from_pdf pages
  if my.isEmpty then Except.error extractionError
  else Except.ok (calculate_score key my)

/-! ### Helper lemmas about the extractor -/

/-- A consumed literal never lengthens the text. -/
theorem consumeLit_length (lit : List Char) :
    ∀ cs rest, consumeLit lit cs = some rest → rest.length ≤ cs.length := by
  induction lit with
  | nil =>
    intro cs rest h
    simp only [consumeLit, Option.some.injEq] at h
    exact h ▸ le_refl _
  | cons l ls ih =>
    intro cs rest h
    cases cs with
    | nil => exact Option.noConfusion h
    | cons c cs =>
      simp only [consumeLit] at h
      split at h
      · exact le_trans (ih cs rest h) (Nat.le_succ _)
      · exact Option.noConfusion h

/-- A successful match consumes at least one character (`:` and a digit in
fact), so scanning with fuel `cs.length` never starves. -/
theorem matchAt_rest_length (lit cs ds rest : List Char)
    (h : matchAt lit cs = some (ds, rest)) : rest.length < cs.length := by
  simp only [matchAt] at h
  split at h
  · exact Option.noConfusion h
  · rename_i r1 hc
    split at h
    · exact Option.noConfusion h
    · rename_i c r3 hdrop
      split at h
      · split at h
        · exact Option.noConfusion h
        · rename_i hcolon hds
          have hr1 : r1.length ≤ cs.length := consumeLit_length lit cs r1 hc
          have hr3 : r3.length + 1 ≤ r1.length := by
            have := (List.dropWhile_sublist (l := r1) pySpace).length_le
            rw [hdrop] at this
            simpa using this
          have hrest : rest.length ≤ r3.length := by
            have h2 : rest = (r3.dropWhile pySpace).dropWhile Char.isDigit := by
              have := (Prod.mk.injEq _ _ _ _).mp (Option.some.injEq _ _ |>.mp h)
              exact this.2.symm
            rw [h2]
            exact le_trans
              ((List.dropWhile_sublist Char.isDigit).length_le)
              ((List.dropWhile_sublist pySpace).length_le)
          omega
      · exact Option.noConfusion h

/-- Appending parsed pairs one by one equals appending the mapped columns. -/
theorem foldl_append_pairs (l : List (List Char × List Char)) :
    ∀ q c : List Int,
      l.foldl (fun a p => (a.1 ++ [strToInt p.1], a.2 ++ [strToInt p.2])) (q, c)
        = (q ++ l.map (fun p => strToInt p.1), c ++ l.map (fun p => strToInt p.2)) := by
  induction l with
  | nil => intro q c; simp
  | cons p l ih =>
    intro q c
    simp only [List.foldl_cons, List.map_cons]
    rw [ih]
    simp

/-- One page appends exactly its pair columns to the accumulators. -/
theorem extractFold_eq (acc : List Int × List Int) (t : List Char) :
    extractFold acc t
      = (acc.1 ++ (pagePairs t).map Prod.fst, acc.2 ++ (pagePairs t).map Prod.snd) := by
  obtain ⟨q, c⟩ := acc
  simp only [extractFold, pagePairs]
  rw [foldl_append_pairs]
  simp [List.map_map, Function.comp_def]

/-- The page fold accumulates the two columns of all pages' pairs. -/
theorem foldl_extractFold (pages : List (List Char)) :
    ∀ q c : List Int,
      pages.foldl extractFold (q, c)
        = (q ++ ((pages.map pagePairs).flatten).map Prod.fst,
           c ++ ((pages.map pagePairs).flatten).map Prod.snd) := by
  induction pages with
  | nil => intro q c; simp
  | cons t ps ih =>
    intro q c
    simp only [List.foldl_cons, List.map_cons, List.flatten_cons]
    rw [extractFold_eq, ih]
    simp

/-- The extractor is the concatenation, in page order, of each page's
positionally zipped pairs. -/
theorem extract_eq_flatten (pages : List (List Char)) :
    extract_answers_from_pdf pages = (pages.map pagePairs).flatten := by
  unfold extract_answers_from_pdf
  rw [foldl_extractFold]
  simp only [List.nil_append]
  rw [List.zip_map']
  simp

/-- A single page's contribution. -/
theorem extract_single (t : List Char) :
    extract_answers_from_pdf [t] = pagePairs t := by
  rw [extract_eq_flatten]
  simp

/-! ### Helper lemmas about the scorer -/

/-- When the extracted `QuestionID`s are pairwise distinct, at most one
extracted row matches any value. -/
theorem filter_length_le_one {ans : List (Int × Int)}
    (h : (ans.map Prod.fst).Nodup) (q : Int) :
    (ans.filter (fun a => a.1 == q)).length ≤ 1 := by
  induction ans with
  | nil => simp
  | cons a l ih =>
    rw [List.map_cons, List.nodup_cons] at h
    by_cases hq : a.1 == q
    · have hnil : l.filter (fun a => a.1 == q) = [] := by
        rw [List.filter_eq_nil_iff]
        intro b hb hbq
        apply h.1
        have hab : a.1 = b.1 := by
          have h1 : a.1 = q := by simpa using hq
          have h2 : b.1 = q := by simpa using hbq
          rw [h1, h2]
        rw [hab]
        exact List.mem_map.mpr ⟨b, hb, rfl⟩
      simp [List.filter_cons, hq, hnil]
    · simpa [List.filter_cons, hq] using ih h.2

/-- With at most one match per value, every key row yields exactly one
merged row. -/
theorem mergeGroup_length {ans : List (Int × Int)}
    (h : ∀ q, (ans.filter (fun a => a.1 == q)).length ≤ 1) (k : Int × Int) :
    (mergeGroup ans k).length = 1 := by
  unfold mergeGroup
  cases hf : ans.filter (fun a => a.1 == k.1) with
  | nil => simp [hf]
  | cons a l =>
    have := h k.1
    rw [hf] at this
    simp only [List.length_cons] at this
    have hl : l = [] := List.length_eq_zero.mp (by omega)
    subst hl
    simp [hf]

/-- With at most one match per value, the merge is one row per key row. -/
theorem merge_left_length {ans : List (Int × Int)} (key : List (Int × Int))
    (h : ∀ q, (ans.filter (fun a => a.1 == q)).length ≤ 1) :
    (merge_left key ans).length = key.length := by
  induction key with
  | nil => rfl
  | cons k ks ih =>
    simp only [merge_left, List.map_cons, List.flatten_cons, List.length_append,
      List.length_cons] at *
    rw [mergeGroup_length h k, ih]
    omega

/-- What membership in one merge group says about the row's fields. -/
theorem mem_mergeGroup {ans : List (Int × Int)} {k : Int × Int} {m : MergedRow}
    (hm : m ∈ mergeGroup ans k) :
    m.QuestionID = k.1 ∧ m.CorrectOption = k.2 ∧
      ((ans.filter (fun a => a.1 == k.1) = [] ∧ m.ChosenOption = none) ∨
       (∃ a ∈ ans, a.1 = k.1 ∧ m.ChosenOption = some a.2)) := by
  unfold mergeGroup at hm
  cases hf : ans.filter (fun a => a.1 == k.1) with
  | nil =>
    rw [hf] at hm
    simp only [List.isEmpty_nil, if_true, List.mem_singleton] at hm
    subst hm
    exact ⟨rfl, rfl, Or.inl ⟨rfl, rfl⟩⟩
  | cons a l =>
    rw [hf] at hm
    simp only [List.isEmpty_cons, if_false, List.mem_map, Bool.false_eq_true] at hm
    obtain ⟨b, hb, rfl⟩ := hm
    have hb' : b ∈ ans.filter (fun a => a.1 == k.1) := by rw [hf]; exact hb
    have := List.mem_filter.mp hb'
    exact ⟨rfl, rfl, Or.inr ⟨b, this.1, by simpa using this.2, rfl⟩⟩

/-- Every report row arises by scoring a merged row. -/
theorem mem_report {key ans : List (Int × Int)} {r : ScoredRow}
    (hr : r ∈ (calculate_score key ans).1) :
    ∃ k ∈ key, ∃ m ∈ mergeGroup ans k, r = scoreRow m := by
  simp only [calculate_score] at hr
  obtain ⟨m, hm, rfl⟩ := List.mem_map.mp hr
  simp only [merge_left, List.mem_flatten, List.mem_map] at hm
  obtain ⟨g, ⟨k, hk, rfl⟩, hmg⟩ := hm
  exact ⟨k, hk, m, hmg, rfl⟩

/-- `result_row` returns one of the three classifications. -/
theorem result_row_cases (m : MergedRow) :
    result_row m = "Correct" ∨ result_row m = "Wrong" ∨
      result_row m = "Not Attempted" := by
  unfold result_row
  cases m.ChosenOption with
  | none => exact Or.inr (Or.inr rfl)
  | some c =>
    by_cases h : c = m.CorrectOption
    · exact Or.inl (by simp [h])
    · exact Or.inr (Or.inl (by simp [h]))

/-- A list each of whose rows is classified one of three ways is counted
exactly once by the three counters together. -/
theorem countP_three_sum (l : List ScoredRow)
    (h : ∀ r ∈ l, r.Result = "Correct" ∨ r.Result = "Wrong" ∨
        r.Result = "Not Attempted") :
    l.countP (fun r => r.Result == "Correct")
      + l.countP (fun r => r.Result == "Wrong")
      + l.countP (fun r => r.Result == "Not Attempted") = l.length := by
  induction l with
  | nil => rfl
  | cons r l ih =>
    have hr := h r (List.mem_cons_self r l)
    have hl := ih fun x hx => h x (List.mem_cons_of_mem r hx)
    simp only [List.countP_cons, List.length_cons]
    rcases hr with h1 | h1 | h1 <;> rw [h1] <;> simp <;> omega

/-- `marks_row` is 2 on "Correct" and 0 otherwise, because
`MARKS_WRONG = MARKS_UNATTEMPTED = 0`. -/
theorem marks_row_eq (s : String) :
    marks_row s = if s = "Correct" then 2 else 0 := by
  unfold marks_row MARKS_CORRECT MARKS_WRONG MARKS_UNATTEMPTED
  split_ifs <;> rfl

/-- Summing the marks column counts the "Correct" rows twice each. -/
theorem sum_marks_eq (l : List MergedRow) :
    ((l.map scoreRow).map ScoredRow.Marks).sum
      = 2 * (((l.map scoreRow).countP (fun r => r.Result == "Correct")) : Int) := by
  induction l with
  | nil => rfl
  | cons m l ih =>
    simp only [List.map_cons, List.sum_cons, List.countP_cons]
    rw [ih]
    have hres : (scoreRow m).Result = result_row m := rfl
    have hmarks : (scoreRow m).Marks = marks_row (result_row m) := rfl
    by_cases h : result_row m = "Correct"
    · rw [hmarks, marks_row_eq, if_pos h]
      simp only [hres, h, show (("Correct" : String) == "Correct") = true from by decide,
        if_true]
      push_cast
      ring
    · rw [hmarks, marks_row_eq, if_neg h]
      have : ((scoreRow m).Result == "Correct") = false := by
        rw [hres]
        exact beq_false_of_ne h
      simp only [this, if_false]
      push_cast
      ring

/-- Scoring with no extracted answers merges every key row with `NaN`. -/
theorem merge_left_nil (key : List (Int × Int)) :
    merge_left key [] = key.map (fun k => (⟨k.1, k.2, none⟩ : MergedRow)) := by
  induction key with
  | nil => rfl
  | cons k ks ih =>
    simp only [merge_left, List.map_cons, List.flatten_cons] at *
    rw [ih]
    rfl

/-- When every key row has exactly its correct answer extracted, the merge
attaches exactly that answer to every key row. -/
theorem merge_left_exact (key ans : List (Int × Int))
    (h : ∀ k ∈ key, ans.filter (fun a => a.1 == k.1) = [(k.1, k.2)]) :
    merge_left key ans = key.map (fun k => (⟨k.1, k.2, some k.2⟩ : MergedRow)) := by
  induction key with
  | nil => rfl
  | cons k ks ih =>
    have hk := h k (List.mem_cons_self k ks)
    simp only [merge_left, List.map_cons, List.flatten_cons] at *
    rw [ih fun x hx => h x (List.mem_cons_of_mem k hx)]
    have : mergeGroup ans k = [⟨k.1, k.2, some k.2⟩] := by
      unfold mergeGroup
      rw [hk]
      rfl
    rw [this]
    rfl

/-! ### The claims -/

/-- C1 (amended): for every answer key `K` and extracted answers `E` whose
`QuestionID`s are pairwise distinct, the report returned by
`calculate_score` has exactly `len(K)` rows.  (Without that proviso the
pandas left merge fans out on duplicated extracted `QuestionID`s.) -/
theorem report_length_eq_key_length (key ans : List (Int × Int))
    (h : (ans.map Prod.fst).Nodup) :
    (calculate_score key ans).1.length = key.length := by
  simp only [calculate_score, List.length_map]
  exact merge_left_length key (filter_length_le_one h)

/-- C1, counterexample to the claim as stated: with key `[(1, 2)]` and
extracted answers `[(1, 1), (1, 2)]` (QuestionID 1 twice) the report has 2
rows, not `len(K) = 1`. -/
theorem report_length_counterexample :
    ¬ ((calculate_score [((1 : Int), (2 : Int))] [(1, 1), (1, 2)]).1.length
        = ([((1 : Int), (2 : Int))] : List (Int × Int)).length) := by decide

/-- C1, witness: the amended theorem applied at a concrete input. -/
theorem report_length_eq_key_length_app :
    (calculate_score [((1 : Int), (2 : Int))] [(1, 3)]).1.length
      = ([((1 : Int), (2 : Int))] : List (Int × Int)).length :=
  report_length_eq_key_length [(1, 2)] [(1, 3)] (by decide)

/-- C2 (amended): for every answer key `K` and extracted answers `E` whose
`QuestionID`s are pairwise distinct, the summary satisfies
`CorrectCount + WrongCount + NotAttemptedCount = len(K)`.  (Without that
proviso the counts sum to the fanned-out report length instead.) -/
theorem counts_sum_eq_key_length (key ans : List (Int × Int))
    (h : (ans.map Prod.fst).Nodup) :
    (calculate_score key ans).2.Correct + (calculate_score key ans).2.Wrong
      + (calculate_score key ans).2.NotAttempted = key.length := by
  simp only [calculate_score]
  rw [countP_three_sum]
  · simp only [List.length_map]
    exact merge_left_length key (filter_length_le_one h)
  · intro r hr
    obtain ⟨m, hm, rfl⟩ := List.mem_map.mp hr
    exact result_row_cases m

/-- C2, counterexample to the claim as stated: with key `[(5, 1)]` and
extracted answers `[(5, 1), (5, 2)]` the three counts sum to 2, not
`len(K) = 1`. -/
theorem counts_sum_counterexample :
    ¬ ((calculate_score [((5 : Int), (1 : Int))] [(5, 1), (5, 2)]).2.Correct
        + (calculate_score [((5 : Int), (1 : Int))] [(5, 1), (5, 2)]).2.Wrong
        + (calculate_score [((5 : Int), (1 : Int))] [(5, 1), (5, 2)]).2.NotAttempted
        = ([((5 : Int), (1 : Int))] : List (Int × Int)).length) := by decide

/-- C2, witness: the amended theorem applied at a concrete input. -/
theorem counts_sum_eq_key_length_app :
    (calculate_score [((5 : Int), (1 : Int))] [(5, 1)]).2.Correct
      + (calculate_score [((5 : Int), (1 : Int))] [(5, 1)]).2.Wrong
      + (calculate_score [((5 : Int), (1 : Int))] [(5, 1)]).2.NotAttempted
      = ([((5 : Int), (1 : Int))] : List (Int × Int)).length :=
  counts_sum_eq_key_length [(5, 1)] [(5, 1)] (by decide)

/-- C3: for every answer key and extracted answers, the summary's
`TotalScore` (the sum of the per-row `Marks` column, with Correct → +2,
Wrong → 0, NotAttempted → 0) equals twice its `CorrectCount`. -/
theorem total_score_eq_twice_correct (key ans : List (Int × Int)) :
    (calculate_score key ans).2.TotalScore
      = 2 * ((calculate_score key ans).2.Correct : Int) := by
  simp only [calculate_score]
  exact sum_marks_eq (merge_left key ans)

/-- C3, witness: the theorem applied at a concrete input. -/
theorem total_score_eq_twice_correct_app :
    (calculate_score [((1 : Int), (2 : Int))] [(1, 2)]).2.TotalScore
      = 2 * ((calculate_score [((1 : Int), (2 : Int))] [(1, 2)]).2.Correct : Int) :=
  total_score_eq_twice_correct [(1, 2)] [(1, 2)]

/-- C4: every row of the report is classified by `result_row` exactly as
the claim states: no matching extracted answer → "Not Attempted"; a chosen
option numerically equal to the correct option → "Correct"; a different
one → "Wrong". -/
theorem report_row_classification (key ans : List (Int × Int)) (r : ScoredRow)
    (hr : r ∈ (calculate_score key ans).1) :
    (ans.filter (fun a => a.1 == r.QuestionID) = [] → r.Result = "Not Attempted")
    ∧ (∀ c, r.ChosenOption = some c → c = r.CorrectOption → r.Result = "Correct")
    ∧ (∀ c, r.ChosenOption = some c → c ≠ r.CorrectOption → r.Result = "Wrong") := by
  obtain ⟨k, hk, m, hm, rfl⟩ := mem_report hr
  obtain ⟨hq, hco, hcase⟩ := mem_mergeGroup hm
  refine ⟨?_, ?_, ?_⟩
  · intro hfil
    rcases hcase with ⟨hnil, hnone⟩ | ⟨a, ha, haq, hsome⟩
    · show result_row m = "Not Attempted"
      unfold result_row
      rw [hnone]
    · exfalso
      have hmem : a ∈ ans.filter (fun x => x.1 == (scoreRow m).QuestionID) := by
        rw [List.mem_filter]
        refine ⟨ha, ?_⟩
        have hqk : (scoreRow m).QuestionID = k.1 := hq
        rw [hqk]
        simp [haq]
      rw [hfil] at hmem
      exact List.not_mem_nil a hmem
  · intro c hc hceq
    show result_row m = "Correct"
    have hc' : m.ChosenOption = some c := hc
    have hceq' : c = m.CorrectOption := hceq
    unfold result_row
    rw [hc']
    exact if_pos hceq'
  · intro c hc hcne
    show result_row m = "Wrong"
    have hc' : m.ChosenOption = some c := hc
    have hcne' : ¬ c = m.CorrectOption := hcne
    unfold result_row
    rw [hc']
    exact if_neg hcne'

/-- C4, witness: the theorem applied at a concrete report row. -/
theorem report_row_classification_app :
    (⟨1, 2, some 2, "Correct", 2⟩ : ScoredRow).Result = "Correct" :=
  ((report_row_classification [((1 : Int), (2 : Int))] [(1, 2)]
      ⟨1, 2, some 2, "Correct", 2⟩ (by decide)).2.1) 2 rfl rfl

/-- C5: the extractor's output is the concatenation, in page order, of each
page's pairs, where a page's pairs pair the i-th question-identifier match
with the i-th chosen-option match in order of appearance. -/
theorem extract_pairs_pagewise (pages : List (List Char)) :
    extract_answers_from_pdf pages = (pages.map pagePairs).flatten :=
  extract_eq_flatten pages

/-- C5, witness: the theorem applied at two concrete pages. -/
theorem extract_pairs_pagewise_app :
    extract_answers_from_pdf
        [("Question ID : 1 Chosen Option : 2").data,
         ("Question ID : 3 Chosen Option : 4").data]
      = ([("Question ID : 1 Chosen Option : 2").data,
          ("Question ID : 3 Chosen Option : 4").data].map pagePairs).flatten :=
  extract_pairs_pagewise _

/-- A page with no question-identifier matches contributes nothing to the
accumulators. -/
theorem extractFold_nil (acc : List Int × List Int) (t : List Char)
    (hq : findall qidLit t = []) : extractFold acc t = acc := by
  simp [extractFold, hq]

/-- C6: when no identifier and no chosen-option markers occur on any page,
the extractor returns the empty sequence, and the pipeline halts with the
distinct extraction diagnostic instead of producing a report or summary. -/
theorem no_markers_empty_extraction_halts (key : List (Int × Int))
    (pages : List (List Char))
    (h : ∀ t ∈ pages, findall qidLit t = [] ∧ findall chosenLit t = []) :
    extract_answers_from_pdf pages = []
    ∧ runPipeline key pages = Except.error extractionError := by
  have hext : extract_answers_from_pdf pages = [] := by
    rw [extract_eq_flatten]
    rw [List.flatten_eq_nil_iff]
    intro l hl
    obtain ⟨t, ht, rfl⟩ := List.mem_map.mp hl
    simp [pagePairs, (h t ht).1]
  refine ⟨hext, ?_⟩
  simp [runPipeline, hext]

/-- C6, witness: the theorem applied at a concrete marker-free page. -/
theorem no_markers_empty_extraction_halts_app :
    extract_answers_from_pdf [("hello world").data] = []
    ∧ runPipeline [((1 : Int), (2 : Int))] [("hello world").data]
        = Except.error extractionError :=
  no_markers_empty_extraction_halts [(1, 2)] [("hello world").data] (by decide)

/-- C7: identifiers and options are compared as integers, not strings: a
leading zero never changes the parsed value, and concretely the identifier
written "007" extracts as the integer 7 and matches a key entry for
question 7, scoring "Correct". -/
theorem integer_semantics_leading_zeros :
    (∀ ds : List Char, strToNat ('0' :: ds) = strToNat ds)
    ∧ extract_answers_from_pdf [("Question ID : 007 Chosen Option : 2").data]
        = [(7, 2)]
    ∧ (calculate_score [(7, 2)]
          (extract_answers_from_pdf
            [("Question ID : 007 Chosen Option : 2").data])).1.map ScoredRow.Result
        = ["Correct"] := by
  refine ⟨fun ds => ?_, by decide, by decide⟩
  simp only [strToNat, List.foldl_cons]
  congr 1

/-- C8: scoring any answer key against an empty extracted-answer sequence
marks every row "Not Attempted" and totals 0. -/
theorem empty_extracted_scores_not_attempted (key : List (Int × Int)) :
    (∀ r ∈ (calculate_score key []).1, r.Result = "Not Attempted")
    ∧ (calculate_score key []).2.TotalScore = 0 := by
  have hm := merge_left_nil key
  constructor
  · intro r hr
    simp only [calculate_score, hm, List.map_map, List.mem_map] at hr
    obtain ⟨k, hk, rfl⟩ := hr
    rfl
  · simp only [calculate_score, hm]
    apply List.sum_eq_zero
    intro x hx
    simp only [List.map_map, List.mem_map] at hx
    obtain ⟨k, hk, rfl⟩ := hx
    rfl

/-- C8, witness: the theorem applied at a concrete key. -/
theorem empty_extracted_scores_not_attempted_app :
    (calculate_score [((1 : Int), (2 : Int))] []).2.TotalScore = 0
    ∧ (⟨1, 2, none, "Not Attempted", 0⟩ : ScoredRow).Result = "Not Attempted" :=
  ⟨(empty_extracted_scores_not_attempted [(1, 2)]).2,
   (empty_extracted_scores_not_attempted [(1, 2)]).1
     ⟨1, 2, none, "Not Attempted", 0⟩ (by decide)⟩

/-- A key row merged with exactly its own correct answer scores "Correct"
with 2 marks. -/
theorem scoreRow_exact (k : Int × Int) :
    scoreRow ⟨k.1, k.2, some k.2⟩ = ⟨k.1, k.2, some k.2, "Correct", 2⟩ := by
  have hres : result_row ⟨k.1, k.2, some k.2⟩ = "Correct" := if_pos rfl
  simp [scoreRow, hres, marks_row_eq]

/-- C9: when the extracted answers contain exactly one entry per
`QuestionID` of the key, each with the key's correct option, the summary
has `TotalScore = 2 × len(K)` and `WrongCount = NotAttemptedCount = 0`. -/
theorem full_correct_coverage_score (key ans : List (Int × Int))
    (h : ∀ k ∈ key, ans.filter (fun a => a.1 == k.1) = [(k.1, k.2)]) :
    (calculate_score key ans).2.TotalScore = 2 * (key.length : Int)
    ∧ (calculate_score key ans).2.Wrong = 0
    ∧ (calculate_score key ans).2.NotAttempted = 0 := by
  have hm := merge_left_exact key ans h
  refine ⟨?_, ?_, ?_⟩ <;> simp only [calculate_score, hm]
  · rw [sum_marks_eq]
    have : ((key.map (fun k => (⟨k.1, k.2, some k.2⟩ : MergedRow))).map
        scoreRow).countP (fun r => r.Result == "Correct")
        = ((key.map (fun k => (⟨k.1, k.2, some k.2⟩ : MergedRow))).map
          scoreRow).length := by
      rw [List.countP_eq_length]
      intro r hr
      simp only [List.map_map, List.mem_map] at hr
      obtain ⟨k, hk, rfl⟩ := hr
      simp [Function.comp_def, scoreRow_exact]
    rw [this]
    simp
  · rw [List.countP_eq_zero]
    intro r hr
    simp only [List.map_map, List.mem_map] at hr
    obtain ⟨k, hk, rfl⟩ := hr
    simp [Function.comp_def, scoreRow_exact]
  · rw [List.countP_eq_zero]
    intro r hr
    simp only [List.map_map, List.mem_map] at hr
    obtain ⟨k, hk, rfl⟩ := hr
    simp [Function.comp_def, scoreRow_exact]

/-- C9, witness: the theorem applied at a concrete fully-correct input. -/
theorem full_correct_coverage_score_app :
    (calculate_score [((1 : Int), (2 : Int)), (2, 3)] [(1, 2), (2, 3)]).2.TotalScore
        = 2 * (([((1 : Int), (2 : Int)), (2, 3)] : List (Int × Int)).length : Int)
    ∧ (calculate_score [((1 : Int), (2 : Int)), (2, 3)] [(1, 2), (2, 3)]).2.Wrong = 0
    ∧ (calculate_score [((1 : Int), (2 : Int)), (2, 3)]
        [(1, 2), (2, 3)]).2.NotAttempted = 0 :=
  full_correct_coverage_score [(1, 2), (2, 3)] [(1, 2), (2, 3)] (by decide)

/-- C10: per page the extractor emits exactly
`min (#identifier matches) (#chosen-option matches)` pairs — `zip`
truncation — and the i-th emitted pair is the parsed i-th match of each
list; it is a total function and never pairs a missing counterpart. -/
theorem page_zip_truncation (t : List Char) :
    (extract_answers_from_pdf [t]).length
      = min (findall qidLit t).length (findall chosenLit t).length
    ∧ ∀ i, i < (extract_answers_from_pdf [t]).length →
        (extract_answers_from_pdf [t]).getD i (0, 0)
          = (strToInt ((findall qidLit t).getD i []),
             strToInt ((findall chosenLit t).getD i [])) := by
  rw [extract_single]
  have hlen : (pagePairs t).length
      = min (findall qidLit t).length (findall chosenLit t).length := by
    simp [pagePairs, List.length_zip]
  refine ⟨hlen, fun i hi => ?_⟩
  have h1 : i < (findall qidLit t).length := by
    rw [hlen] at hi
    omega
  have h2 : i < (findall chosenLit t).length := by
    rw [hlen] at hi
    omega
  rw [List.getD_eq_getElem _ _ hi, List.getD_eq_getElem _ _ h1,
    List.getD_eq_getElem _ _ h2]
  simp [pagePairs, List.getElem_map, List.getElem_zip]

/-- C10, witness: a page with two identifier matches and one chosen-option
match yields exactly one pair, from the first match of each list. -/
theorem page_zip_truncation_app :
    (extract_answers_from_pdf
        [("Question ID:12 Question ID : 34 Chosen Option:1").data]).length = 1
    ∧ (extract_answers_from_pdf
        [("Question ID:12 Question ID : 34 Chosen Option:1").data]).getD 0 (0, 0)
        = (12, 1) := by
  have h := page_zip_truncation (("Question ID:12 Question ID : 34 Chosen Option:1").data)
  exact ⟨h.1.trans (by decide), (h.2 0 (by decide)).trans (by decide)⟩

end UgcNet
